import Mathlib

/-!
Verification of the NOAA coral-bleaching monitoring pipeline
(`04_percentile_climatology.py`): climatology baseline reduction,
per-day percentile extraction, rolling DHW accumulation and BAA
alert classification, and the input-inventory resolver.

All numeric values are modelled as rationals; invalid/NaN entries in
point samples are modelled as `Option` values removed by `cleanSample`
(mirroring `dropna`).
-/

set_option maxHeartbeats 1000000
set_option maxRecDepth 1000000

namespace NOAA

/-- One `(lon, lat, val)` point-sample row of an XYZ file. -/
abbrev Row : Type := ℚ × ℚ × ℚ

/-- A per-site climatology entry: `{"mmm": ..., "monthly_means": [...]}`. -/
structure ClimData where
  mmm : ℚ
  monthly_means : List ℚ
deriving DecidableEq

/-- Python `max` over a nonempty list (`max(clean_means)`); 0 on `[]`
(unreachable in the program, guarded by the length check). -/
def pyMax : List ℚ → ℚ
  | [] => 0
  | x :: xs => xs.foldl max x

/-- Python/pandas `min` over a nonempty list; 0 on `[]` (unreachable). -/
def pyMin : List ℚ → ℚ
  | [] => 0
  | x :: xs => xs.foldl min x

/-- `max(self.baa_window)` over a nonempty list of levels; 0 on `[]`,
matching `max(self.baa_window) if self.baa_window else 0`. -/
def pyMaxNat : List ℕ → ℕ
  | [] => 0
  | x :: xs => xs.foldl max x

/-- The per-site body of `calculate_climatology_data` (lines 137-153):
the 12 monthly spatial means (a missing variable or NaN mean modelled as
`none`), cleaned, succeed only when all 12 survive; `mmm` is their max. -/
def calcClimSite (site_means : List (Option ℚ)) : Option ClimData :=
  let clean_means := site_means.reduceOption
  if clean_means.length = 12 then
    some { mmm := pyMax clean_means, monthly_means := clean_means }
  else none

/-- The explicit degraded default `{'mmm': 0.0, 'monthly_means': [0.0]*12}`
used by `main` when a site has no climatology entry (line 328). -/
def zeroClim : ClimData := { mmm := 0, monthly_means := List.replicate 12 0 }

/-- `clim_data_store.get(code, {'mmm': 0.0, 'monthly_means': [0.0]*12})`:
the store lookup result with the zero-baseline default. -/
def siteClim (stored : Option ClimData) : ClimData := stored.getD zeroClim

/-- Insertion step of an ascending sort (models `np.sort` used inside
`np.percentile`). -/
def insertSorted (x : ℚ) : List ℚ → List ℚ
  | [] => [x]
  | y :: ys => if x ≤ y then x :: y :: ys else y :: insertSorted x ys

/-- Ascending sort of the sample values. -/
def sortVals (l : List ℚ) : List ℚ := l.foldr insertSorted []

/-- `np.percentile(hs_values, 90)` with the default linear-interpolation
method: on the ascending sort `s` of the `n` values, with
`pos = (n-1)*90/100`, `k = floor pos`, returns
`s[k] + (pos-k) * (s[k+1] - s[k])`. -/
def percentile90 (l : List ℚ) : ℚ :=
  let s := sortVals l
  let n := s.length
  let pos : ℚ := ((n : ℚ) - 1) * 9 / 10
  let k : ℕ := pos.floor.toNat
  let frac : ℚ := pos - (k : ℚ)
  let vk : ℚ := s.getD k 0
  let vk1 : ℚ := s.getD (k + 1) vk
  vk + frac * (vk1 - vk)

/-- Accumulator loop of `np.argmin(np.abs(hs_values - hs_90))`: first
index of minimal absolute deviation (strict `<` keeps the first). -/
def argminAuxD (target : ℚ) : List ℚ → ℕ → ℕ → ℚ → ℕ
  | [], _, best, _ => best
  | v :: vs, i, best, bestd =>
    if |v - target| < bestd then argminAuxD target vs (i + 1) i (|v - target|)
    else argminAuxD target vs (i + 1) best bestd

/-- `idx_p90 = (np.abs(hs_values - hs_90)).argmin()` (line 203). -/
def argminAbs (target : ℚ) : List ℚ → ℕ
  | [] => 0
  | v :: vs => argminAuxD target vs 1 0 (|v - target|)

/-- The SST block (lines 208-214): one shared `try` around the three
assignments `sst_val = iloc[idx]`, `sst_min = min()`, `sst_max = max()`;
an out-of-range `iloc` aborts the whole block, leaving every field at the
sentinel `-999.0`.  Returns `(sst_val, sst_min, sst_max)`. -/
def sstFields (sstOpt : Option (List ℚ)) (idx : ℕ) : ℚ × ℚ × ℚ :=
  match sstOpt with
  | none => (-999, -999, -999)
  | some rows =>
    match rows.get? idx with
    | none => (-999, -999, -999)
    | some v => (v, pyMin rows, pyMax rows)

/-- The SSTA block (lines 216-220): `ssta_val = iloc[idx]` inside its own
`try`, sentinel `-999.0` on absence or failure. -/
def sstaField (sstaOpt : Option (List ℚ)) (idx : ℕ) : ℚ :=
  match sstaOpt with
  | none => -999
  | some rows => (rows.get? idx).getD (-999)

/-- `daily_stress = hs_90 / 7.0 if hs_90 >= 1.0 else 0.0` (lines 224-226). -/
def dailyStress (hs_90 : ℚ) : ℚ := if 1 ≤ hs_90 then hs_90 / 7 else 0

/-- The alert-level chain of lines 233-245, with the initial
`daily_alert_level = 0` as the fall-through value. -/
def alertLevel (hs_90 current_dhw : ℚ) : ℕ :=
  if hs_90 ≤ 0 then 0
  else if 0 < hs_90 ∧ hs_90 < 1 then 1
  else if current_dhw < 4 then 2
  else if 4 ≤ current_dhw ∧ current_dhw < 8 then 3
  else if 8 ≤ current_dhw then 4
  else 0

/-- The alert table exactly as the specification states it (§4.3 step 9). -/
def specAlertLevel (hs_p90 dhw : ℚ) : ℕ :=
  if hs_p90 ≤ 0 then 0
  else if hs_p90 < 1 then 1
  else if dhw < 4 then 2
  else if dhw < 8 then 3
  else 4

/-- `collections.deque(maxlen := cap)` append: drop the oldest entry once
the window is full. -/
def pushWindow {α : Type} (cap : ℕ) (w : List α) (x : α) : List α :=
  if w.length < cap then w ++ [x] else w.tail ++ [x]

/-- Mutable state of one `RegionAnalyzer` instance. -/
structure AnalyzerState where
  stress_window : List ℚ
  baa_window : List ℕ
  center_lon : ℚ
  center_lat : ℚ
  coord_set : Bool
  mmm : ℚ
  monthly_means : List ℚ
deriving DecidableEq

/-- `RegionAnalyzer.__init__`: empty windows, zero centroid, baseline
loaded from the climatology entry. -/
def initState (clim : ClimData) : AnalyzerState :=
  { stress_window := []
    baa_window := []
    center_lon := 0
    center_lat := 0
    coord_set := false
    mmm := clim.mmm
    monthly_means := clim.monthly_means }

/-- One row of the final report table, as returned by `process_day`
(lines 251-260); the date is carried as an opaque index. -/
structure DailyRecord where
  date : ℕ
  sst_min : ℚ
  sst_max : ℚ
  sst_90 : ℚ
  ssta_90 : ℚ
  hs_90 : ℚ
  dhw : ℚ
  baa : ℕ
deriving DecidableEq

/-- A default record used with `List.getD`. -/
def defaultRecord : DailyRecord :=
  { date := 0, sst_min := 0, sst_max := 0, sst_90 := 0, ssta_90 := 0,
    hs_90 := 0, dhw := 0, baa := 0 }

/-- `df_hs.dropna()`: remove invalid (NaN-containing) rows. -/
def cleanSample (raw : List (Option Row)) : List Row := raw.reduceOption

/-- The HS value column `df_hs['val'].values`. -/
def hsVals (rows : List Row) : List ℚ := rows.map fun t => t.2.2

/-- Python `df['col'].mean()` of a nonempty column. -/
def listMean (l : List ℚ) : ℚ := l.sum / (l.length : ℚ)

/-- Lines 193-196: fix the polygon-centre coordinates on the first
successful call only. -/
def coordUpdate (s : AnalyzerState) (rows : List Row) : AnalyzerState :=
  if s.coord_set then s
  else { s with center_lon := listMean (rows.map fun t => t.1)
                center_lat := listMean (rows.map fun t => t.2.1)
                coord_set := true }

/-- Body of `process_day` after the non-empty HS check (lines 193-260):
percentile extraction, cross-variable sampling, DHW accumulation, BAA
classification, returning the record and the updated state. -/
def processDayGo (s : AnalyzerState) (date : ℕ) (rows : List Row)
    (sstOpt sstaOpt : Option (List ℚ)) : DailyRecord × AnalyzerState :=
  let s1 := coordUpdate s rows
  let hs_values := hsVals rows
  let hs_90 := percentile90 hs_values
  let idx_p90 := argminAbs hs_90 hs_values
  let sstT := sstFields sstOpt idx_p90
  let ssta_val := sstaField sstaOpt idx_p90
  let daily_stress := dailyStress hs_90
  let sw := pushWindow 84 s1.stress_window daily_stress
  let current_dhw := sw.sum
  let lvl := alertLevel hs_90 current_dhw
  let bw := pushWindow 7 s1.baa_window lvl
  ({ date := date
     sst_min := sstT.2.1
     sst_max := sstT.2.2
     sst_90 := sstT.1
     ssta_90 := ssta_val
     hs_90 := max 0 hs_90
     dhw := current_dhw
     baa := pyMaxNat bw },
   { s1 with stress_window := sw, baa_window := bw })

/-- `RegionAnalyzer.process_day` (lines 185-263): the cleaned HS sample,
if empty, skips the day with the state untouched; otherwise the day is
processed by `processDayGo`. -/
def processDay (s : AnalyzerState) (date : ℕ) (hsRaw : List (Option Row))
    (sstOpt sstaOpt : Option (List ℚ)) : Option DailyRecord × AnalyzerState :=
  let rows := cleanSample hsRaw
  if rows.isEmpty then (none, s)
  else
    let p := processDayGo s date rows sstOpt sstaOpt
    (some p.1, p.2)

/-- The per-date file group of `files_map[region][date_str]`: the HS
sample is mandatory for processing, SST/SSTA optional. -/
structure DateFiles where
  date : ℕ
  hs : Option (List (Option Row))
  sst : Option (List ℚ)
  ssta : Option (List ℚ)

/-- One iteration of the per-site date loop (lines 335-346): dates with
no HS file are skipped (`continue`), others go through `process_day`. -/
def stepDate (s : AnalyzerState) (d : DateFiles) :
    Option DailyRecord × AnalyzerState :=
  match d.hs with
  | none => (none, s)
  | some hsRaw => processDay s d.date hsRaw d.sst d.ssta

/-- Fold step accumulating the `results_buffer` (line 346). -/
def runStep (acc : List DailyRecord × AnalyzerState) (d : DateFiles) :
    List DailyRecord × AnalyzerState :=
  match stepDate acc.2 d with
  | (some r, s') => (acc.1 ++ [r], s')
  | (none, s') => (acc.1, s')

/-- The whole per-site date loop from a given state. -/
def runDays (s : AnalyzerState) (ds : List DateFiles) :
    List DailyRecord × AnalyzerState :=
  ds.foldl runStep ([], s)

/-- The `results_buffer` of one site processed from a fresh analyzer. -/
def runRecs (c : ClimData) (ds : List DateFiles) : List DailyRecord :=
  (runDays (initState c) ds).1

/-- The analyzer state after one site's date loop. -/
def runSt (c : ClimData) (ds : List DateFiles) : AnalyzerState :=
  (runDays (initState c) ds).2

/-- The daily stress a record contributed, recomputed from its reported
`hs_90` (the clamp `max(0, hs_90)` does not change it). -/
def stressOf (r : DailyRecord) : ℚ := dailyStress r.hs_90

/-- The daily alert level of a record, recomputed from its reported
fields. -/
def levelOf (r : DailyRecord) : ℕ := alertLevel r.hs_90 r.dhw

/-- The last `n` elements of a list (the contents of a `deque` of
capacity `n` fed the whole list). -/
def lastN {α : Type} (n : ℕ) (l : List α) : List α := l.drop (l.length - n)

/-! ### Helper lemmas about folds, maxima and windows -/

section MaxFold

variable {α : Type} [LinearOrder α]

lemma le_foldl_max_init (l : List α) (acc : α) : acc ≤ l.foldl max acc := by
  induction l generalizing acc with
  | nil => exact le_rfl
  | cons x xs ih => exact le_trans (le_max_left acc x) (ih (max acc x))

lemma foldl_max_mem (l : List α) (acc : α) : l.foldl max acc ∈ acc :: l := by
  induction l generalizing acc with
  | nil => simp
  | cons x xs ih =>
    have h := ih (max acc x)
    simp only [List.foldl_cons]
    rcases max_choice acc x with hm | hm <;> rw [hm] at h ⊢ <;>
      rcases List.mem_cons.mp h with h' | h' <;> simp [h']

lemma le_foldl_max_of_mem {l : List α} {a : α} (h : a ∈ l) (acc : α) :
    a ≤ l.foldl max acc := by
  induction l generalizing acc with
  | nil => cases h
  | cons x xs ih =>
    rcases List.mem_cons.mp h with h' | h'
    · subst h'
      exact le_trans (le_max_right acc a) (le_foldl_max_init xs (max acc a))
    · exact ih h' (max acc x)

end MaxFold

lemma le_pyMax {l : List ℚ} {a : ℚ} (h : a ∈ l) : a ≤ pyMax l := by
  cases l with
  | nil => cases h
  | cons x xs =>
    rcases List.mem_cons.mp h with h' | h'
    · subst h'; exact le_foldl_max_init xs a
    · exact le_foldl_max_of_mem h' x

lemma pyMax_mem {l : List ℚ} (h : l ≠ []) : pyMax l ∈ l := by
  cases l with
  | nil => exact absurd rfl h
  | cons x xs => exact foldl_max_mem xs x

lemma le_pyMaxNat {l : List ℕ} {a : ℕ} (h : a ∈ l) : a ≤ pyMaxNat l := by
  cases l with
  | nil => cases h
  | cons x xs =>
    rcases List.mem_cons.mp h with h' | h'
    · subst h'; exact le_foldl_max_init xs a
    · exact le_foldl_max_of_mem h' x

lemma pyMaxNat_mem {l : List ℕ} (h : l ≠ []) : pyMaxNat l ∈ l := by
  cases l with
  | nil => exact absurd rfl h
  | cons x xs => exact foldl_max_mem xs x

lemma reduceOption_map_some {α : Type} (l : List α) :
    (l.map some).reduceOption = l := by
  induction l with
  | nil => rfl
  | cons x xs ih => simp [List.reduceOption_cons_of_some, ih]

lemma mem_insertSorted {x y : ℚ} {l : List ℚ} (h : y ∈ insertSorted x l) :
    y = x ∨ y ∈ l := by
  induction l with
  | nil => simpa [insertSorted] using h
  | cons z zs ih =>
    unfold insertSorted at h
    split at h
    · rcases List.mem_cons.mp h with h' | h'
      · exact Or.inl h'
      · exact Or.inr h'
    · rcases List.mem_cons.mp h with h' | h'
      · exact Or.inr (by simp [h'])
      · rcases ih h' with h'' | h''
        · exact Or.inl h''
        · exact Or.inr (by simp [h''])

lemma length_insertSorted (x : ℚ) (l : List ℚ) :
    (insertSorted x l).length = l.length + 1 := by
  induction l with
  | nil => rfl
  | cons z zs ih =>
    unfold insertSorted
    split
    · simp
    · simp [ih]

lemma mem_of_mem_sortVals {y : ℚ} {l : List ℚ} (h : y ∈ sortVals l) : y ∈ l := by
  induction l with
  | nil => simpa [sortVals] using h
  | cons z zs ih =>
    unfold sortVals at h ih
    rcases mem_insertSorted h with h' | h'
    · simp [h']
    · simp [ih h']

lemma length_sortVals (l : List ℚ) : (sortVals l).length = l.length := by
  induction l with
  | nil => rfl
  | cons z zs ih =>
    unfold sortVals at ih ⊢
    simp [length_insertSorted, ih]

/-- The 90th percentile of a nonempty constant sample is that constant. -/
lemma percentile90_const {l : List ℚ} {c : ℚ} (hne : l ≠ [])
    (hc : ∀ y ∈ l, y = c) : percentile90 l = c := by
  have hs_mem : ∀ y ∈ sortVals l, y = c := fun y hy => hc y (mem_of_mem_sortVals hy)
  have hn : 0 < (sortVals l).length := by
    rw [length_sortVals]; exact List.length_pos.mpr hne
  simp only [percentile90]
  set s := sortVals l with hs
  set n := s.length with hnn
  set pos : ℚ := ((n : ℚ) - 1) * 9 / 10 with hpos
  have hposle : pos ≤ (n : ℚ) - 1 := by
    rw [hpos]
    have h1 : (0 : ℚ) ≤ (n : ℚ) - 1 := by
      have : (1 : ℚ) ≤ (n : ℚ) := by exact_mod_cast hn
      linarith
    nlinarith
  have hkn : pos.floor.toNat < n := by
    have h2 : (pos.floor : ℚ) ≤ (n : ℚ) - 1 := le_trans (Int.floor_le pos) hposle
    have h3 : pos.floor ≤ (n : ℤ) - 1 := by exact_mod_cast h2
    omega
  have hvk : s.getD pos.floor.toNat 0 = c := by
    rw [List.getD_eq_getElem s 0 hkn]
    exact hs_mem _ (List.getElem_mem hkn)
  rw [hvk]
  by_cases hk1 : pos.floor.toNat + 1 < n
  · rw [List.getD_eq_getElem s c hk1]
    rw [hs_mem _ (List.getElem_mem hk1)]
    ring
  · rw [List.getD_eq_default s c (by omega)]
    ring

/-! ### Equations for `process_day` -/

lemma coordUpdate_stress (s : AnalyzerState) (rows : List Row) :
    (coordUpdate s rows).stress_window = s.stress_window := by
  unfold coordUpdate; split <;> rfl

lemma coordUpdate_baa (s : AnalyzerState) (rows : List Row) :
    (coordUpdate s rows).baa_window = s.baa_window := by
  unfold coordUpdate; split <;> rfl

lemma coordUpdate_mmm (s : AnalyzerState) (rows : List Row) :
    (coordUpdate s rows).mmm = s.mmm := by
  unfold coordUpdate; split <;> rfl

lemma processDay_of_empty {hsRaw : List (Option Row)} (s : AnalyzerState)
    (date : ℕ) (sstOpt sstaOpt : Option (List ℚ)) (h : cleanSample hsRaw = []) :
    processDay s date hsRaw sstOpt sstaOpt = (none, s) := by
  simp [processDay, h]

lemma processDay_of_ne {hsRaw : List (Option Row)} (s : AnalyzerState)
    (date : ℕ) (sstOpt sstaOpt : Option (List ℚ)) (h : cleanSample hsRaw ≠ []) :
    processDay s date hsRaw sstOpt sstaOpt =
      (some (processDayGo s date (cleanSample hsRaw) sstOpt sstaOpt).1,
       (processDayGo s date (cleanSample hsRaw) sstOpt sstaOpt).2) := by
  simp [processDay, h]

/-- The raw (unclamped) 90th-percentile HotSpot of a processed day. -/
def rawHs90 (rows : List Row) : ℚ := percentile90 (hsVals rows)

lemma go_hs90 (s : AnalyzerState) (date : ℕ) (rows : List Row)
    (sstOpt sstaOpt : Option (List ℚ)) :
    (processDayGo s date rows sstOpt sstaOpt).1.hs_90 = max 0 (rawHs90 rows) := rfl

lemma go_stress_window (s : AnalyzerState) (date : ℕ) (rows : List Row)
    (sstOpt sstaOpt : Option (List ℚ)) :
    (processDayGo s date rows sstOpt sstaOpt).2.stress_window
      = pushWindow 84 s.stress_window (dailyStress (rawHs90 rows)) := by
  show pushWindow 84 (coordUpdate s rows).stress_window _ = _
  rw [coordUpdate_stress]
  rfl

lemma go_dhw (s : AnalyzerState) (date : ℕ) (rows : List Row)
    (sstOpt sstaOpt : Option (List ℚ)) :
    (processDayGo s date rows sstOpt sstaOpt).1.dhw
      = (processDayGo s date rows sstOpt sstaOpt).2.stress_window.sum := rfl

lemma go_baa_window (s : AnalyzerState) (date : ℕ) (rows : List Row)
    (sstOpt sstaOpt : Option (List ℚ)) :
    (processDayGo s date rows sstOpt sstaOpt).2.baa_window
      = pushWindow 7 s.baa_window
          (alertLevel (rawHs90 rows) (processDayGo s date rows sstOpt sstaOpt).1.dhw) := by
  show pushWindow 7 (coordUpdate s rows).baa_window _ = _
  rw [coordUpdate_baa]
  rfl

lemma go_baa (s : AnalyzerState) (date : ℕ) (rows : List Row)
    (sstOpt sstaOpt : Option (List ℚ)) :
    (processDayGo s date rows sstOpt sstaOpt).1.baa
      = pyMaxNat (processDayGo s date rows sstOpt sstaOpt).2.baa_window := rfl

lemma go_sst90 (s : AnalyzerState) (date : ℕ) (rows : List Row)
    (sstOpt sstaOpt : Option (List ℚ)) :
    (processDayGo s date rows sstOpt sstaOpt).1.sst_90
      = (sstFields sstOpt (argminAbs (rawHs90 rows) (hsVals rows))).1 := rfl

lemma go_sstMin (s : AnalyzerState) (date : ℕ) (rows : List Row)
    (sstOpt sstaOpt : Option (List ℚ)) :
    (processDayGo s date rows sstOpt sstaOpt).1.sst_min
      = (sstFields sstOpt (argminAbs (rawHs90 rows) (hsVals rows))).2.1 := rfl

lemma go_sstMax (s : AnalyzerState) (date : ℕ) (rows : List Row)
    (sstOpt sstaOpt : Option (List ℚ)) :
    (processDayGo s date rows sstOpt sstaOpt).1.sst_max
      = (sstFields sstOpt (argminAbs (rawHs90 rows) (hsVals rows))).2.2 := rfl

lemma go_ssta90 (s : AnalyzerState) (date : ℕ) (rows : List Row)
    (sstOpt sstaOpt : Option (List ℚ)) :
    (processDayGo s date rows sstOpt sstaOpt).1.ssta_90
      = sstaField sstaOpt (argminAbs (rawHs90 rows) (hsVals rows)) := rfl

lemma sstFields_none_idx {rows : List ℚ} {idx : ℕ} (h : rows.get? idx = none) :
    sstFields (some rows) idx = (-999, -999, -999) := by
  have h' : rows[idx]? = none := by rw [← List.get?_eq_getElem?]; exact h
  simp [sstFields, h']

lemma sstFields_some_idx {rows : List ℚ} {idx : ℕ} {v : ℚ}
    (h : rows.get? idx = some v) :
    sstFields (some rows) idx = (v, pyMin rows, pyMax rows) := by
  have h' : rows[idx]? = some v := by rw [← List.get?_eq_getElem?]; exact h
  simp [sstFields, h']

lemma processDay_isSome (s : AnalyzerState) (date : ℕ) (hsRaw : List (Option Row))
    (sstOpt sstaOpt : Option (List ℚ)) :
    (processDay s date hsRaw sstOpt sstaOpt).1.isSome
      = !(cleanSample hsRaw).isEmpty := by
  by_cases h : cleanSample hsRaw = []
  · rw [processDay_of_empty _ _ _ _ h]
    simp [h]
  · rw [processDay_of_ne _ _ _ _ h]
    simp [h]

end NOAA

namespace NOAA

/-! ### C6: SST/SSTA sampling and the shared `try` block -/

/-- C6 counterexample: with HS values `[0, 10]` the representative index
is 1, while the present, nonempty SST sample `[25]` has only index 0; the
`iloc` failure on `sst_val` aborts the shared `try`, so `sst_min` and
`sst_max` are also left at `-999.0` even though `min`/`max` over the
sample (both `25`) were computable — the fields are not independent. -/
theorem sst_shared_try_cx :
    ((processDay (initState zeroClim) 0
        [some ((0 : ℚ), (0 : ℚ), (0 : ℚ)), some ((0 : ℚ), (0 : ℚ), (10 : ℚ))]
        (some [25]) none).1.map (fun r => (r.sst_90, r.sst_min, r.sst_max)))
      = some (-999, -999, -999) ∧
    pyMin [(25 : ℚ)] = 25 ∧ pyMax [(25 : ℚ)] = 25 ∧ ((-999 : ℚ) ≠ 25) := by
  refine ⟨by with_unfolding_all rfl, by with_unfolding_all rfl,
    by with_unfolding_all rfl, by with_unfolding_all decide⟩

/-- C6 amended: if the SST sample is absent, all three SST fields are the
sentinel `-999.0` (similarly `ssta_at_p90`); if it is present, the three
assignments share a single `try` in the order `sst_at_p90`, `sst_min`,
`sst_max`, so an index-access failure leaves all three at the sentinel
(they are not independent per field), while a successful access fills all
three; in either case the day itself is never aborted (success of
`process_day` does not depend on the SST/SSTA samples). -/
theorem sst_sampling (s : AnalyzerState) (date : ℕ) (hsRaw : List (Option Row))
    (sstOpt sstaOpt : Option (List ℚ)) (r : DailyRecord)
    (h : (processDay s date hsRaw sstOpt sstaOpt).1 = some r) :
    (sstOpt = none → r.sst_90 = -999 ∧ r.sst_min = -999 ∧ r.sst_max = -999) ∧
    (sstaOpt = none → r.ssta_90 = -999) ∧
    (∀ rows, sstOpt = some rows →
      (rows.get? (argminAbs (rawHs90 (cleanSample hsRaw)) (hsVals (cleanSample hsRaw))) = none →
        r.sst_90 = -999 ∧ r.sst_min = -999 ∧ r.sst_max = -999) ∧
      (∀ v, rows.get? (argminAbs (rawHs90 (cleanSample hsRaw)) (hsVals (cleanSample hsRaw))) = some v →
        r.sst_90 = v ∧ r.sst_min = pyMin rows ∧ r.sst_max = pyMax rows)) ∧
    (∀ rows, sstaOpt = some rows →
      r.ssta_90 = (rows.get? (argminAbs (rawHs90 (cleanSample hsRaw)) (hsVals (cleanSample hsRaw)))).getD (-999)) ∧
    ((processDay s date hsRaw sstOpt sstaOpt).1.isSome
      = (processDay s date hsRaw none none).1.isSome) := by
  have hne : cleanSample hsRaw ≠ [] := by
    intro e
    rw [processDay_of_empty _ _ _ _ e] at h
    simp at h
  rw [processDay_of_ne _ _ _ _ hne] at h
  have hr : (processDayGo s date (cleanSample hsRaw) sstOpt sstaOpt).1 = r :=
    Option.some.inj h
  refine ⟨?_, ?_, ?_, ?_, ?_⟩
  · rintro rfl
    rw [← hr]
    exact ⟨rfl, rfl, rfl⟩
  · rintro rfl
    rw [← hr]
    rfl
  · rintro rows rfl
    constructor
    · intro hget
      rw [← hr, go_sst90, go_sstMin, go_sstMax, sstFields_none_idx hget]
      exact ⟨rfl, rfl, rfl⟩
    · intro v hget
      rw [← hr, go_sst90, go_sstMin, go_sstMax, sstFields_some_idx hget]
      exact ⟨rfl, rfl, rfl⟩
  · rintro rows rfl
    rw [← hr, go_ssta90]
    rfl
  · rw [processDay_isSome, processDay_isSome]

theorem sst_sampling_witness :
    ({ date := 0, sst_min := 30, sst_max := 30, sst_90 := 30, ssta_90 := -999,
       hs_90 := 2, dhw := 2/7, baa := 2 : DailyRecord }.ssta_90 = -999) ∧
    ({ date := 0, sst_min := 30, sst_max := 30, sst_90 := 30, ssta_90 := -999,
       hs_90 := 2, dhw := 2/7, baa := 2 : DailyRecord }.sst_90 = 30) ∧
    ({ date := 0, sst_min := 30, sst_max := 30, sst_90 := 30, ssta_90 := -999,
       hs_90 := 2, dhw := 2/7, baa := 2 : DailyRecord }.sst_min = pyMin [30]) ∧
    ({ date := 0, sst_min := 30, sst_max := 30, sst_90 := 30, ssta_90 := -999,
       hs_90 := 2, dhw := 2/7, baa := 2 : DailyRecord }.sst_max = pyMax [30]) ∧
    ((processDay (initState zeroClim) 0 [some ((0 : ℚ), (0 : ℚ), (2 : ℚ))]
        (some [30]) none).1.isSome
      = (processDay (initState zeroClim) 0 [some ((0 : ℚ), (0 : ℚ), (2 : ℚ))]
        none none).1.isSome) := by
  have h := sst_sampling (initState zeroClim) 0 [some ((0 : ℚ), (0 : ℚ), (2 : ℚ))]
    (some [30]) none
    { date := 0, sst_min := 30, sst_max := 30, sst_90 := 30, ssta_90 := -999,
      hs_90 := 2, dhw := 2/7, baa := 2 }
    (by with_unfolding_all rfl)
  have hacc := (h.2.2.1 [30] rfl).2 30 (by with_unfolding_all rfl)
  exact ⟨h.2.1 rfl, hacc.1, hacc.2.1, hacc.2.2, h.2.2.2.2⟩

end NOAA

namespace NOAA

/-! ### C5: a single all-0.5 day -/

/-- C5 counterexample: on a single processed day whose only HS value is
`0.5`, the code returns `baa = 1` (Watch, from the `0 < hs_90 < 1`
branch), not `baa = 0` as the claim states. -/
theorem constant_half_day_cx :
    ((processDay (initState zeroClim) 0 [some ((0 : ℚ), (0 : ℚ), (1 : ℚ)/2)]
        none none).1.map (fun r => r.baa)) = some 1 ∧ (1 : ℕ) ≠ 0 := by
  constructor
  · with_unfolding_all rfl
  · decide

/-- C5 amended: a single processed day on which every HS value equals
`0.5` yields `hs_p90 = 0.5`, `daily_stress = 0` (the stress window
becomes `[0]`), `dhw = 0`, and `baa = 1` (alert level 1, Watch). -/
theorem constant_half_day (c : ClimData) (hsRaw : List (Option Row))
    (date : ℕ) (hne : cleanSample hsRaw ≠ [])
    (hc : ∀ t ∈ cleanSample hsRaw, t.2.2 = (1 : ℚ)/2)
    (r : DailyRecord) (s' : AnalyzerState)
    (h : processDay (initState c) date hsRaw none none = (some r, s')) :
    r.hs_90 = 1/2 ∧ s'.stress_window = [0] ∧ r.dhw = 0 ∧ r.baa = 1 := by
  have hvals : ∀ y ∈ hsVals (cleanSample hsRaw), y = (1 : ℚ)/2 := by
    intro y hy
    rcases List.mem_map.mp hy with ⟨t, ht, rfl⟩
    exact hc t ht
  have hvne : hsVals (cleanSample hsRaw) ≠ [] := by
    intro e
    exact hne (List.map_eq_nil.mp e)
  have hp : rawHs90 (cleanSample hsRaw) = 1/2 := percentile90_const hvne hvals
  rw [processDay_of_ne _ _ _ _ hne] at h
  have hr' : (processDayGo (initState c) date (cleanSample hsRaw) none none).1 = r :=
    Option.some.inj (congrArg Prod.fst h)
  have hs' : (processDayGo (initState c) date (cleanSample hsRaw) none none).2 = s' :=
    congrArg Prod.snd h
  have hsw : s'.stress_window = [0] := by
    rw [← hs', go_stress_window, hp]
    norm_num [initState, dailyStress, pushWindow]
  have hdhw : r.dhw = 0 := by
    rw [← hr', go_dhw, hs', hsw]
    simp
  refine ⟨?_, hsw, hdhw, ?_⟩
  · rw [← hr', go_hs90, hp]
    norm_num
  · rw [← hr', go_baa, go_baa_window]
    have hdhw' : (processDayGo (initState c) date (cleanSample hsRaw) none none).1.dhw = 0 := by
      rw [hr', hdhw]
    rw [hdhw', hp]
    norm_num [initState, alertLevel, pushWindow, pyMaxNat]

theorem constant_half_day_witness :
    cleanSample [some ((0 : ℚ), (0 : ℚ), (1 : ℚ)/2)] ≠ [] ∧
    ({ date := 0, sst_min := -999, sst_max := -999, sst_90 := -999, ssta_90 := -999,
       hs_90 := 1/2, dhw := 0, baa := 1 : DailyRecord }.hs_90 = 1/2 ∧
     ({ stress_window := [0], baa_window := [1], center_lon := 0, center_lat := 0,
        coord_set := true, mmm := 0,
        monthly_means := List.replicate 12 0 : AnalyzerState }.stress_window = [0]) ∧
     ({ date := 0, sst_min := -999, sst_max := -999, sst_90 := -999, ssta_90 := -999,
        hs_90 := 1/2, dhw := 0, baa := 1 : DailyRecord }.dhw = 0) ∧
     ({ date := 0, sst_min := -999, sst_max := -999, sst_90 := -999, ssta_90 := -999,
        hs_90 := 1/2, dhw := 0, baa := 1 : DailyRecord }.baa = 1)) := by
  refine ⟨by with_unfolding_all decide, ?_⟩
  exact constant_half_day zeroClim [some ((0 : ℚ), (0 : ℚ), (1 : ℚ)/2)] 0
    (by with_unfolding_all decide) (by with_unfolding_all decide)
    { date := 0, sst_min := -999, sst_max := -999, sst_90 := -999, ssta_90 := -999,
      hs_90 := 1/2, dhw := 0, baa := 1 }
    { stress_window := [0], baa_window := [1], center_lon := 0, center_lat := 0,
      coord_set := true, mmm := 0, monthly_means := List.replicate 12 0 }
    (by with_unfolding_all decide)

end NOAA

namespace NOAA

/-! ### C4 / C9: climatology baseline -/

/-- C4: for any complete `MonthlyMeanSet` (all 12 monthly entries present
and finite), the climatology computation succeeds, `mmm` equals the
maximum of the 12 values, and the `monthly_means` carried into the output
preserve the original January-to-December order. -/
theorem climatology_complete (ms : List ℚ) (h : ms.length = 12) :
    calcClimSite (ms.map some) = some { mmm := pyMax ms, monthly_means := ms } ∧
    pyMax ms ∈ ms ∧ ∀ x ∈ ms, x ≤ pyMax ms := by
  have hne : ms ≠ [] := by intro e; subst e; simp at h
  refine ⟨?_, pyMax_mem hne, fun x hx => le_pyMax hx⟩
  simp [calcClimSite, reduceOption_map_some, h]

theorem climatology_complete_witness :
    calcClimSite (([3, 1, 4, 1, 5, 9, 2, 6, 5, 3, 5, 8] : List ℚ).map some)
      = some { mmm := pyMax [3, 1, 4, 1, 5, 9, 2, 6, 5, 3, 5, 8],
               monthly_means := [3, 1, 4, 1, 5, 9, 2, 6, 5, 3, 5, 8] } ∧
    pyMax ([3, 1, 4, 1, 5, 9, 2, 6, 5, 3, 5, 8] : List ℚ)
      ∈ ([3, 1, 4, 1, 5, 9, 2, 6, 5, 3, 5, 8] : List ℚ) ∧
    (9 : ℚ) ≤ pyMax ([3, 1, 4, 1, 5, 9, 2, 6, 5, 3, 5, 8] : List ℚ) := by
  have h := climatology_complete [3, 1, 4, 1, 5, 9, 2, 6, 5, 3, 5, 8] (by decide)
  exact ⟨h.1, h.2.1, h.2.2 9 (by decide)⟩

/-- C9: whenever the climatology computation for a site fails (an entry
missing or non-finite), the site gets no baseline result; the pipeline
substitutes the explicit zero baseline `{mmm: 0, monthly_means: [0]*12}`
and continues processing the site's dates with it. -/
theorem climatology_incomplete (ms : List (Option ℚ)) (h12 : ms.length = 12)
    (hmiss : none ∈ ms) (ds : List DateFiles) :
    calcClimSite ms = none ∧
    siteClim none = { mmm := 0, monthly_means := List.replicate 12 0 } ∧
    runDays (initState (siteClim none)) ds
      = runDays (initState { mmm := 0, monthly_means := List.replicate 12 0 }) ds := by
  refine ⟨?_, rfl, rfl⟩
  have hlt : ms.reduceOption.length < ms.length :=
    List.reduceOption_length_lt_iff.mpr hmiss
  simp only [calcClimSite]
  rw [if_neg]
  omega

theorem climatology_incomplete_witness :
    calcClimSite ((List.replicate 11 (some (1 : ℚ))) ++ [none]) = none ∧
    siteClim none = { mmm := 0, monthly_means := List.replicate 12 0 } ∧
    runDays (initState (siteClim none)) []
      = runDays (initState { mmm := 0, monthly_means := List.replicate 12 0 }) [] :=
  climatology_incomplete ((List.replicate 11 (some (1 : ℚ))) ++ [none])
    (by decide) (by decide) []

end NOAA

namespace NOAA

/-! ### C7: the input-inventory resolver -/

/-- Variable kind of an XYZ file, as detected from its name. -/
inductive FType
  | HS
  | SSTA
  | SST
  | UNKNOWN
deriving DecidableEq

/-- Site code, detected from the filename token `{code}_`. -/
inductive Region
  | GM
  | GN
  | NP
deriving DecidableEq

/-- `f.lower()`. -/
def lowerName (f : List Char) : List Char := f.map Char.toLower

/-- `startsWith pat l`: does `l` begin with `pat`? -/
def startsWith : List Char → List Char → Bool
  | [], _ => true
  | _ :: _, [] => false
  | a :: as, b :: bs => a == b && startsWith as bs

/-- Python `pat in l`: substring containment. -/
def containsSub (pat : List Char) : List Char → Bool
  | [] => startsWith pat []
  | c :: cs => startsWith pat (c :: cs) || containsSub pat cs

/-- `f.endswith(pat)`. -/
def endsWithList (pat l : List Char) : Bool := startsWith pat.reverse l.reverse

/-- `re.search(r"(\d{8})", f)` step: the next 8 characters if they are
all digits. -/
def takeDigits8 (l : List Char) : Option (List Char) :=
  let t := l.take 8
  if t.length = 8 && t.all Char.isDigit then some t else none

/-- `re.search(r"(\d{8})", f)`: leftmost run of 8 consecutive digits. -/
def findDate : List Char → Option (List Char)
  | [] => none
  | c :: cs =>
    match takeDigits8 (c :: cs) with
    | some d => some d
    | none => findDate cs

/-- Region detection (lines 298-303): first site code whose token
`{code}_` occurs in the lowercased name, in dict order GM, GN, NP. -/
def detectRegion (nl : List Char) : Option Region :=
  if containsSub (String.toList "gm_") nl then some Region.GM
  else if containsSub (String.toList "gn_") nl then some Region.GN
  else if containsSub (String.toList "np_") nl then some Region.NP
  else none

/-- Variable-kind chain of lines 311-315, applied to the lowercased
name. -/
def resolveKind (nl : List Char) : FType :=
  if containsSub (String.toList "hs") nl && !containsSub (String.toList "hotspot") nl then
    FType.HS
  else if containsSub (String.toList "hotspot") nl then FType.HS
  else if containsSub (String.toList "ssta") nl then FType.SSTA
  else if containsSub (String.toList "sst") nl then FType.SST
  else FType.UNKNOWN

/-- The kind-priority rule exactly as the specification words it (§4.2):
"hotspot" or "hs" anywhere gives HS, else "ssta" gives SSTA, else "sst"
gives SST, else UNKNOWN. -/
def specResolveKind (nl : List Char) : FType :=
  if containsSub (String.toList "hotspot") nl || containsSub (String.toList "hs") nl then
    FType.HS
  else if containsSub (String.toList "ssta") nl then FType.SSTA
  else if containsSub (String.toList "sst") nl then FType.SST
  else FType.UNKNOWN

/-- One iteration of the file-inventory loop (lines 292-320): `.xyz`
check, region token, 8-digit date, variable kind.  A classified file is
inserted into `files_map` under whatever kind was resolved — there is no
guard against `UNKNOWN`. -/
def classifyFile (f : List Char) : Option (Region × List Char × FType) :=
  if endsWithList (String.toList ".xyz") f then
    match detectRegion (lowerName f) with
    | none => none
    | some reg =>
      match findDate f with
      | none => none
      | some dstr => some (reg, dstr, resolveKind (lowerName f))
  else none

/-- C7 counterexample: `gm_dhw_20240101.xyz` matches site GM and a date
but none of the kind substrings, yet it is classified and inserted into
the map under the `UNKNOWN` kind rather than discarded, so the map does
not contain only HS, SSTA and SST entries. -/
theorem kind_unknown_cx :
    classifyFile (String.toList "gm_dhw_20240101.xyz")
      = some (Region.GM, String.toList "20240101", FType.UNKNOWN) ∧
    FType.UNKNOWN ≠ FType.HS ∧ FType.UNKNOWN ≠ FType.SSTA ∧
    FType.UNKNOWN ≠ FType.SST := by
  exact ⟨by decide, by decide, by decide, by decide⟩

/-- C7 amended: the variable kind is resolved by the priority-ordered
substring match of the claim ("hotspot" or "hs" → HS, else "ssta" → SSTA,
else "sst" → SST, else UNKNOWN), but a file matching none of the kind
substrings is not discarded: it is inserted into the site→date→kind map
under the UNKNOWN kind (which downstream processing never reads). -/
theorem kind_resolution (nl f : List Char) (reg : Region) (dstr : List Char)
    (t : FType) (h : classifyFile f = some (reg, dstr, t)) :
    resolveKind nl = specResolveKind nl ∧ t = resolveKind (lowerName f) := by
  constructor
  · unfold resolveKind specResolveKind
    cases h1 : containsSub (String.toList "hs") nl <;>
      cases h2 : containsSub (String.toList "hotspot") nl <;>
      simp [h1, h2]
  · unfold classifyFile at h
    split at h
    · cases hreg : detectRegion (lowerName f) with
      | none => rw [hreg] at h; exact absurd h (by simp)
      | some reg' =>
        rw [hreg] at h
        cases hdate : findDate f with
        | none => rw [hdate] at h; exact absurd h (by simp)
        | some dstr' =>
          rw [hdate] at h
          have := Option.some.inj h
          exact (congrArg (fun p => p.2.2) this).symm
    · exact absurd h (by simp)

theorem kind_resolution_witness :
    resolveKind (String.toList "np_ssta_20240101.xyz")
      = specResolveKind (String.toList "np_ssta_20240101.xyz") ∧
    FType.HS = resolveKind (lowerName (String.toList "gm_hs_20240101.xyz")) :=
  kind_resolution (String.toList "np_ssta_20240101.xyz")
    (String.toList "gm_hs_20240101.xyz") Region.GM (String.toList "20240101")
    FType.HS (by decide)

end NOAA

namespace NOAA

/-! ### C8: a record exists iff the HS sample does -/

/-- C8: a date yields a `DailyRecord` iff its HS input exists and is
nonempty after cleaning; the empty-HS branch returns skipped with the
state untouched; a date with no HS file is skipped entirely; and the
presence of SST/SSTA never decides whether the day succeeds. -/
theorem record_iff_hs (s : AnalyzerState) (d : DateFiles) :
    ((stepDate s d).1.isSome ↔ ∃ raw, d.hs = some raw ∧ cleanSample raw ≠ []) ∧
    (∀ raw, d.hs = some raw → cleanSample raw = [] → stepDate s d = (none, s)) ∧
    (d.hs = none → stepDate s d = (none, s)) ∧
    ((stepDate s d).1.isSome
      = (stepDate s { d with sst := none, ssta := none }).1.isSome) := by
  refine ⟨?_, ?_, ?_, ?_⟩
  · cases hd : d.hs with
    | none => simp [stepDate, hd]
    | some raw =>
      simp only [stepDate, hd, processDay_isSome]
      constructor
      · intro h
        refine ⟨raw, rfl, ?_⟩
        simpa [List.isEmpty_iff] using h
      · rintro ⟨raw', hr, hne⟩
        have : raw' = raw := Option.some.inj (hr.symm.trans rfl)
        subst this
        simpa [List.isEmpty_iff] using hne
  · intro raw hr he
    simp only [stepDate, hr]
    exact processDay_of_empty _ _ _ _ he
  · intro hr
    simp [stepDate, hr]
  · cases hd : d.hs with
    | none => simp [stepDate, hd]
    | some raw => simp only [stepDate, hd, processDay_isSome]

theorem record_iff_hs_witness :
    ((stepDate (initState zeroClim)
        ⟨0, some [some ((0 : ℚ), (0 : ℚ), (1 : ℚ))], none, none⟩).1.isSome) ∧
    (stepDate (initState zeroClim) ⟨0, some [(none : Option Row)], none, none⟩
      = (none, initState zeroClim)) ∧
    (stepDate (initState zeroClim) ⟨0, none, some [25], some [25]⟩
      = (none, initState zeroClim)) := by
  refine ⟨?_, ?_, ?_⟩
  · exact (record_iff_hs (initState zeroClim)
      ⟨0, some [some ((0 : ℚ), (0 : ℚ), (1 : ℚ))], none, none⟩).1.mpr
      ⟨[some ((0 : ℚ), (0 : ℚ), (1 : ℚ))], rfl, by with_unfolding_all decide⟩
  · exact (record_iff_hs (initState zeroClim)
      ⟨0, some [(none : Option Row)], none, none⟩).2.1
      [(none : Option Row)] rfl (by with_unfolding_all decide)
  · exact (record_iff_hs (initState zeroClim)
      ⟨0, none, some [25], some [25]⟩).2.2.1 rfl

/-! ### C1: alert classification -/

lemma alertLevel_eq_spec (hs dhw : ℚ) : alertLevel hs dhw = specAlertLevel hs dhw := by
  unfold alertLevel specAlertLevel
  by_cases h0 : hs ≤ 0
  · simp [h0]
  · have h0' : 0 < hs := lt_of_not_le h0
    by_cases h1 : hs < 1
    · simp [h0, h0', h1]
    · by_cases h4 : dhw < 4
      · simp [h0, h0', h1, h4]
      · have h4' : 4 ≤ dhw := le_of_not_lt h4
        by_cases h8 : dhw < 8
        · simp [h0, h1, h4, h4', h8]
        · have h8' : 8 ≤ dhw := le_of_not_lt h8
          simp [h0, h1, h4, h8, h8']

lemma specAlertLevel_max0 (x dhw : ℚ) :
    specAlertLevel (max 0 x) dhw = specAlertLevel x dhw := by
  unfold specAlertLevel
  by_cases h : x ≤ 0
  · rw [max_eq_left h]
    simp [h]
  · rw [max_eq_right (le_of_lt (lt_of_not_le h))]

lemma pushWindow_getLast {α : Type} (cap : ℕ) (w : List α) (x : α) :
    (pushWindow cap w x).getLast? = some x := by
  unfold pushWindow
  split <;> rw [List.getLast?_concat]

/-- `process_day` never reads `self.mmm`: running it on a state that
differs only in `mmm` yields the same output and the same state up to
that field. -/
lemma processDay_mmm (s : AnalyzerState) (m : ℚ) (date : ℕ)
    (hsRaw : List (Option Row)) (sstOpt sstaOpt : Option (List ℚ)) :
    processDay { s with mmm := m } date hsRaw sstOpt sstaOpt
      = ((processDay s date hsRaw sstOpt sstaOpt).1,
         { (processDay s date hsRaw sstOpt sstaOpt).2 with mmm := m }) := by
  obtain ⟨sw, bw, lon, lat, cs, mm, mms⟩ := s
  by_cases h : cleanSample hsRaw = []
  · rw [processDay_of_empty _ _ _ _ h, processDay_of_empty _ _ _ _ h]
  · rw [processDay_of_ne _ _ _ _ h, processDay_of_ne _ _ _ _ h]
    cases cs <;> rfl

/-- C1: for every successful `process_day` call, the daily alert level
pushed into the 7-day window is classified from `(hs_p90, current dhw)`
exactly per the spec table, and the classification (indeed the whole
call) never depends on the site baseline `mmm`. -/
theorem alert_classification (hs dhw : ℚ) (s : AnalyzerState) (d : DateFiles)
    (m : ℚ) :
    alertLevel hs dhw = specAlertLevel hs dhw ∧
    (∀ r s', stepDate s d = (some r, s') →
      s'.baa_window.getLast? = some (specAlertLevel r.hs_90 r.dhw)) ∧
    (stepDate { s with mmm := m } d).1 = (stepDate s d).1 ∧
    (stepDate { s with mmm := m } d).2 = { (stepDate s d).2 with mmm := m } := by
  have hmm : ∀ (s : AnalyzerState),
      stepDate { s with mmm := m } d
        = ((stepDate s d).1, { (stepDate s d).2 with mmm := m }) := by
    intro s
    cases hd : d.hs with
    | none => simp [stepDate, hd]
    | some raw => simp only [stepDate, hd, processDay_mmm]
  have h3 : (stepDate { s with mmm := m } d).1 = (stepDate s d).1 := by rw [hmm s]
  have h4 : (stepDate { s with mmm := m } d).2 = { (stepDate s d).2 with mmm := m } := by
    rw [hmm s]
  refine ⟨alertLevel_eq_spec hs dhw, ?_, h3, h4⟩
  intro r s' h
  cases hd : d.hs with
  | none =>
    simp only [stepDate, hd] at h
    exact absurd (congrArg Prod.fst h) (by simp)
  | some raw =>
    simp only [stepDate, hd] at h
    have hne : cleanSample raw ≠ [] := by
      intro e
      rw [processDay_of_empty _ _ _ _ e] at h
      exact absurd (congrArg Prod.fst h) (by simp)
    rw [processDay_of_ne _ _ _ _ hne] at h
    have hr : (processDayGo s d.date (cleanSample raw) d.sst d.ssta).1 = r :=
      Option.some.inj (congrArg Prod.fst h)
    have hs' : (processDayGo s d.date (cleanSample raw) d.sst d.ssta).2 = s' :=
      congrArg Prod.snd h
    rw [← hs', go_baa_window, pushWindow_getLast, ← hr, go_hs90,
      specAlertLevel_max0, ← alertLevel_eq_spec]

theorem alert_classification_witness :
    alertLevel ((1 : ℚ)/2) 0 = specAlertLevel ((1 : ℚ)/2) 0 ∧
    ({ stress_window := [0], baa_window := [1], center_lon := 0, center_lat := 0,
       coord_set := true, mmm := 0,
       monthly_means := List.replicate 12 0 : AnalyzerState }.baa_window.getLast?
      = some (specAlertLevel
          ({ date := 0, sst_min := -999, sst_max := -999, sst_90 := -999,
             ssta_90 := -999, hs_90 := 1/2, dhw := 0, baa := 1 : DailyRecord }.hs_90)
          ({ date := 0, sst_min := -999, sst_max := -999, sst_90 := -999,
             ssta_90 := -999, hs_90 := 1/2, dhw := 0, baa := 1 : DailyRecord }.dhw))) ∧
    (stepDate { initState zeroClim with mmm := 5 }
        ⟨0, some [some ((0 : ℚ), (0 : ℚ), (1 : ℚ)/2)], none, none⟩).1
      = (stepDate (initState zeroClim)
          ⟨0, some [some ((0 : ℚ), (0 : ℚ), (1 : ℚ)/2)], none, none⟩).1 := by
  have h := alert_classification ((1 : ℚ)/2) 0 (initState zeroClim)
    ⟨0, some [some ((0 : ℚ), (0 : ℚ), (1 : ℚ)/2)], none, none⟩ 5
  refine ⟨h.1, ?_, h.2.2.1⟩
  exact h.2.1
    { date := 0, sst_min := -999, sst_max := -999, sst_90 := -999, ssta_90 := -999,
      hs_90 := 1/2, dhw := 0, baa := 1 }
    { stress_window := [0], baa_window := [1], center_lon := 0, center_lat := 0,
      coord_set := true, mmm := 0, monthly_means := List.replicate 12 0 }
    (by with_unfolding_all decide)

end NOAA

namespace NOAA

/-! ### Rolling-window laws: helper lemmas -/

/-- The records of one site's run, mapped to their daily stresses. -/
def stressesOf (recs : List DailyRecord) : List ℚ := recs.map stressOf

/-- The records of one site's run, mapped to their daily alert levels. -/
def levelsOf (recs : List DailyRecord) : List ℕ := recs.map levelOf

lemma dailyStress_max0 (x : ℚ) : dailyStress (max 0 x) = dailyStress x := by
  unfold dailyStress
  by_cases h : 1 ≤ x
  · rw [max_eq_right (le_trans zero_le_one h)]
  · rw [if_neg h, if_neg]
    intro hc
    have hlt : max 0 x < 1 := max_lt (by norm_num) (lt_of_not_le h)
    linarith

lemma dailyStress_nonneg (x : ℚ) : 0 ≤ dailyStress x := by
  unfold dailyStress
  split
  · linarith
  · exact le_refl 0

lemma alertLevel_max0 (x d : ℚ) : alertLevel (max 0 x) d = alertLevel x d := by
  rw [alertLevel_eq_spec, alertLevel_eq_spec, specAlertLevel_max0]

lemma alertLevel_le_four (h d : ℚ) : alertLevel h d ≤ 4 := by
  unfold alertLevel
  split_ifs <;> omega

lemma stressOf_go (s : AnalyzerState) (date : ℕ) (rows : List Row)
    (sstOpt sstaOpt : Option (List ℚ)) :
    stressOf (processDayGo s date rows sstOpt sstaOpt).1 = dailyStress (rawHs90 rows) := by
  unfold stressOf
  rw [go_hs90, dailyStress_max0]

lemma levelOf_go (s : AnalyzerState) (date : ℕ) (rows : List Row)
    (sstOpt sstaOpt : Option (List ℚ)) :
    levelOf (processDayGo s date rows sstOpt sstaOpt).1
      = alertLevel (rawHs90 rows) (processDayGo s date rows sstOpt sstaOpt).1.dhw := by
  unfold levelOf
  rw [go_hs90, alertLevel_max0]

lemma pushWindow_lastN {α : Type} (cap : ℕ) (hcap : 0 < cap) (m : List α) (x : α) :
    pushWindow cap (lastN cap m) x = lastN cap (m ++ [x]) := by
  unfold pushWindow lastN
  simp only [List.length_append, List.length_singleton, List.length_drop]
  by_cases h : m.length < cap
  · rw [Nat.sub_eq_zero_of_le (le_of_lt h), List.drop_zero,
      if_pos (by omega), Nat.sub_eq_zero_of_le (by omega), List.drop_zero]
  · rw [if_neg (by omega), List.tail_drop, List.drop_append_eq_append_drop]
    congr 1
    · congr 1
      omega
    · have h0 : m.length + 1 - cap - m.length = 0 := by omega
      rw [h0, List.drop_zero]

lemma mem_pushWindow {α : Type} {cap : ℕ} {w : List α} {x y : α}
    (h : y ∈ pushWindow cap w x) : y ∈ w ∨ y = x := by
  unfold pushWindow at h
  split at h <;> rcases List.mem_append.mp h with h' | h'
  · exact Or.inl h'
  · exact Or.inr (by simpa using h')
  · exact Or.inl (List.mem_of_mem_tail h')
  · exact Or.inr (by simpa using h')

lemma self_mem_pushWindow {α : Type} (cap : ℕ) (w : List α) (x : α) :
    x ∈ pushWindow cap w x := by
  unfold pushWindow
  split <;> simp

lemma pushWindow_ne_nil {α : Type} (cap : ℕ) (w : List α) (x : α) :
    pushWindow cap w x ≠ [] := by
  intro h
  exact absurd (h ▸ self_mem_pushWindow cap w x) (List.not_mem_nil x)

lemma foldl_max_le {α : Type} [LinearOrder α] {l : List α} {b : α} :
    ∀ {acc : α}, acc ≤ b → (∀ a ∈ l, a ≤ b) → l.foldl max acc ≤ b := by
  induction l with
  | nil => intro acc hacc _; exact hacc
  | cons x xs ih =>
    intro acc hacc h
    exact ih (max_le hacc (h x (by simp))) (fun a ha => h a (by simp [ha]))

lemma pyMaxNat_le {l : List ℕ} {b : ℕ} (h : ∀ a ∈ l, a ≤ b) : pyMaxNat l ≤ b := by
  cases l with
  | nil => exact Nat.zero_le b
  | cons x xs => exact foldl_max_le (h x (by simp)) (fun a ha => h a (by simp [ha]))

lemma getD_append_left {α : Type} (l₁ l₂ : List α) (i : ℕ) (d : α)
    (h : i < l₁.length) : (l₁ ++ l₂).getD i d = l₁.getD i d := by
  rw [List.getD_eq_getElem _ _ (by simp; omega), List.getD_eq_getElem _ _ h]
  exact List.getElem_append_left h

lemma getD_concat_length {α : Type} (l : List α) (a d : α) :
    (l ++ [a]).getD l.length d = a := by
  rw [List.getD_eq_getElem _ _ (by simp)]
  simp

lemma sum_drop_one (l : List ℚ) : (l.drop 1).sum = l.sum - l.getD 0 0 := by
  cases l with
  | nil => simp
  | cons x xs => simp [List.getD]

lemma getD_zero_take (l : List ℚ) (n : ℕ) (hn : 0 < n) :
    (l.take n).getD 0 0 = l.getD 0 0 := by
  cases l with
  | nil => simp
  | cons x xs =>
    cases n with
    | zero => omega
    | succ m => simp [List.getD]

end NOAA

namespace NOAA

/-! ### The run invariant: windows hold the most recent stresses/levels -/

lemma go_spec (s : AnalyzerState) (date : ℕ) (rows : List Row)
    (sstOpt sstaOpt : Option (List ℚ)) :
    (processDayGo s date rows sstOpt sstaOpt).2.stress_window
      = pushWindow 84 s.stress_window (stressOf (processDayGo s date rows sstOpt sstaOpt).1) ∧
    (processDayGo s date rows sstOpt sstaOpt).2.baa_window
      = pushWindow 7 s.baa_window (levelOf (processDayGo s date rows sstOpt sstaOpt).1) ∧
    (processDayGo s date rows sstOpt sstaOpt).1.dhw
      = (processDayGo s date rows sstOpt sstaOpt).2.stress_window.sum ∧
    (processDayGo s date rows sstOpt sstaOpt).1.baa
      = pyMaxNat (processDayGo s date rows sstOpt sstaOpt).2.baa_window := by
  refine ⟨?_, ?_, go_dhw s date rows sstOpt sstaOpt, go_baa s date rows sstOpt sstaOpt⟩
  · rw [go_stress_window, stressOf_go]
  · rw [go_baa_window, levelOf_go]

/-- Invariant tying a `(results_buffer, state)` pair to the window
semantics: the two deques hold exactly the most recent
`min(n, capacity)` stresses/levels of the records produced so far, and
every record's `dhw`/`baa` is the sum/max of the window contents at the
time it was produced. -/
def RunInv (p : List DailyRecord × AnalyzerState) : Prop :=
  p.2.stress_window = lastN 84 (stressesOf p.1) ∧
  p.2.baa_window = lastN 7 (levelsOf p.1) ∧
  ∀ i, i < p.1.length →
    (p.1.getD i defaultRecord).dhw = (lastN 84 (stressesOf (p.1.take (i+1)))).sum ∧
    (p.1.getD i defaultRecord).baa = pyMaxNat (lastN 7 (levelsOf (p.1.take (i+1))))

lemma runStep_inv {p : List DailyRecord × AnalyzerState} (hp : RunInv p)
    (d : DateFiles) : RunInv (runStep p d) := by
  obtain ⟨recs, s⟩ := p
  obtain ⟨h1, h2, h3⟩ := hp
  rcases hhs : d.hs with _ | raw
  · have hid : runStep (recs, s) d = (recs, s) := by
      simp [runStep, stepDate, hhs]
    rw [hid]
    exact ⟨h1, h2, h3⟩
  · by_cases he : cleanSample raw = []
    · have hid : runStep (recs, s) d = (recs, s) := by
        simp [runStep, stepDate, hhs, processDay_of_empty _ _ _ _ he]
      rw [hid]
      exact ⟨h1, h2, h3⟩
    · have hstep : runStep (recs, s) d
          = (recs ++ [(processDayGo s d.date (cleanSample raw) d.sst d.ssta).1],
             (processDayGo s d.date (cleanSample raw) d.sst d.ssta).2) := by
        simp [runStep, stepDate, hhs, processDay_of_ne _ _ _ _ he]
      rw [hstep]
      set G := processDayGo s d.date (cleanSample raw) d.sst d.ssta with hG
      obtain ⟨g1, g2, g3, g4⟩ := go_spec s d.date (cleanSample raw) d.sst d.ssta
      rw [← hG] at g1 g2 g3 g4
      have hsw : G.2.stress_window = lastN 84 (stressesOf (recs ++ [G.1])) := by
        rw [g1, h1,
          show stressesOf (recs ++ [G.1]) = stressesOf recs ++ [stressOf G.1] by
            simp [stressesOf]]
        exact pushWindow_lastN 84 (by norm_num) _ _
      have hbw : G.2.baa_window = lastN 7 (levelsOf (recs ++ [G.1])) := by
        rw [g2, h2,
          show levelsOf (recs ++ [G.1]) = levelsOf recs ++ [levelOf G.1] by
            simp [levelsOf]]
        exact pushWindow_lastN 7 (by norm_num) _ _
      refine ⟨hsw, hbw, ?_⟩
      intro i hi
      simp only [List.length_append, List.length_singleton] at hi
      by_cases hlt : i < recs.length
      · have hget : (recs ++ [G.1]).getD i defaultRecord = recs.getD i defaultRecord :=
          getD_append_left _ _ _ _ hlt
        have htake : (recs ++ [G.1]).take (i + 1) = recs.take (i + 1) :=
          List.take_append_of_le_length (by omega)
        rw [hget, htake]
        exact h3 i hlt
      · have hieq : i = recs.length := by omega
        subst hieq
        have hget : (recs ++ [G.1]).getD recs.length defaultRecord = G.1 :=
          getD_concat_length _ _ _
        have htake : (recs ++ [G.1]).take (recs.length + 1) = recs ++ [G.1] := by
          apply List.take_of_length_le
          simp
        rw [hget, htake]
        exact ⟨by rw [g3, hsw], by rw [g4, hbw]⟩

lemma foldl_runStep_inv (ds : List DateFiles) :
    ∀ p, RunInv p → RunInv (ds.foldl runStep p) := by
  induction ds with
  | nil => intro p hp; exact hp
  | cons d ds ih => intro p hp; exact ih _ (runStep_inv hp d)

lemma runDays_inv (c : ClimData) (ds : List DateFiles) :
    RunInv (runDays (initState c) ds) := by
  apply foldl_runStep_inv
  refine ⟨rfl, rfl, ?_⟩
  intro i hi
  simp at hi

end NOAA

namespace NOAA

/-! ### C2: DHW is the sum of the most recent stresses -/

/-- C2: the daily stress pushed on each successful call equals
`hs_p90/7` when `hs_p90 ≥ 1` and `0` otherwise; each record's `dhw` is
the sum of the stresses of the most recent `min(n, 84)` successful calls;
hence on day 85 the oldest stress is evicted:
`dhw_85 = dhw_84 − stress(day 1) + stress(day 85)`, and 84 days of
constant stress `x` accumulate to `dhw = 84x` on day 84. -/
theorem dhw_accumulation (c : ClimData) (ds : List DateFiles) :
    (∀ s d r s', stepDate s d = (some r, s') →
      s'.stress_window.getLast? = some (if 1 ≤ r.hs_90 then r.hs_90 / 7 else 0)) ∧
    (∀ i, i < (runRecs c ds).length →
      ((runRecs c ds).getD i defaultRecord).dhw
        = (lastN 84 (stressesOf ((runRecs c ds).take (i + 1)))).sum) ∧
    (85 ≤ (runRecs c ds).length →
      ((runRecs c ds).getD 84 defaultRecord).dhw
        = ((runRecs c ds).getD 83 defaultRecord).dhw
          - (stressesOf (runRecs c ds)).getD 0 0
          + (stressesOf (runRecs c ds)).getD 84 0) ∧
    (∀ x : ℚ, 0 < x → 84 ≤ (runRecs c ds).length →
      (stressesOf (runRecs c ds)).take 84 = List.replicate 84 x →
      ((runRecs c ds).getD 83 defaultRecord).dhw = 84 * x) := by
  have hmap : ∀ n, stressesOf ((runRecs c ds).take n)
      = (stressesOf (runRecs c ds)).take n := by
    intro n
    simp [stressesOf, List.map_take]
  have hstrlen : (stressesOf (runRecs c ds)).length = (runRecs c ds).length := by
    simp [stressesOf]
  have hinv : ∀ i, i < (runRecs c ds).length →
      ((runRecs c ds).getD i defaultRecord).dhw
        = (lastN 84 (stressesOf ((runRecs c ds).take (i + 1)))).sum ∧
      ((runRecs c ds).getD i defaultRecord).baa
        = pyMaxNat (lastN 7 (levelsOf ((runRecs c ds).take (i + 1)))) :=
    (runDays_inv c ds).2.2
  refine ⟨?_, ?_, ?_, ?_⟩
  · intro s d r s' h
    cases hd : d.hs with
    | none =>
      simp only [stepDate, hd] at h
      exact absurd (congrArg Prod.fst h) (by simp)
    | some raw =>
      simp only [stepDate, hd] at h
      have hne : cleanSample raw ≠ [] := by
        intro e
        rw [processDay_of_empty _ _ _ _ e] at h
        exact absurd (congrArg Prod.fst h) (by simp)
      rw [processDay_of_ne _ _ _ _ hne] at h
      have hr : (processDayGo s d.date (cleanSample raw) d.sst d.ssta).1 = r :=
        Option.some.inj (congrArg Prod.fst h)
      have hs' : (processDayGo s d.date (cleanSample raw) d.sst d.ssta).2 = s' :=
        congrArg Prod.snd h
      rw [← hs', ← hr, go_stress_window, pushWindow_getLast, go_hs90]
      exact congrArg some (dailyStress_max0 (rawHs90 (cleanSample raw))).symm
  · intro i hi
    exact (hinv i hi).1
  · intro h85
    have h84 := (hinv 84 (by omega)).1
    have h83 := (hinv 83 (by omega)).1
    rw [hmap] at h84 h83
    have hlen85 : ((stressesOf (runRecs c ds)).take 85).length = 85 := by
      rw [List.length_take]
      omega
    have hlen84 : ((stressesOf (runRecs c ds)).take 84).length = 84 := by
      rw [List.length_take]
      omega
    have hL85 : lastN 84 ((stressesOf (runRecs c ds)).take 85)
        = ((stressesOf (runRecs c ds)).take 85).drop 1 := by
      unfold lastN
      rw [hlen85]
    have hL84 : lastN 84 ((stressesOf (runRecs c ds)).take 84)
        = (stressesOf (runRecs c ds)).take 84 := by
      unfold lastN
      rw [hlen84]
      simp
    rw [hL85] at h84
    rw [hL84] at h83
    have hsucc : (stressesOf (runRecs c ds)).take 85
        = (stressesOf (runRecs c ds)).take 84
          ++ [(stressesOf (runRecs c ds)).getD 84 0] := by
      rw [List.take_succ]
      congr 1
      have hg : (stressesOf (runRecs c ds))[84]?
          = some ((stressesOf (runRecs c ds)).getD 84 0) := by
        rw [List.getElem?_eq_getElem (by omega), List.getD_eq_getElem _ _ (by omega)]
      rw [hg]
      rfl
    rw [h84, h83, hsucc, sum_drop_one, List.sum_append]
    have hget0 : ((stressesOf (runRecs c ds)).take 84
        ++ [(stressesOf (runRecs c ds)).getD 84 0]).getD 0 0
        = (stressesOf (runRecs c ds)).getD 0 0 := by
      rw [getD_append_left _ _ _ _ (by omega)]
      exact getD_zero_take _ _ (by omega)
    rw [hget0]
    simp
    ring
  · intro x hx h84len hrep
    have h83 := (hinv 83 (by omega)).1
    rw [hmap] at h83
    have hlen84 : ((stressesOf (runRecs c ds)).take 84).length = 84 := by
      rw [List.length_take]
      omega
    have hL84 : lastN 84 ((stressesOf (runRecs c ds)).take 84)
        = (stressesOf (runRecs c ds)).take 84 := by
      unfold lastN
      rw [hlen84]
      simp
    rw [hL84] at h83
    rw [h83, hrep, List.sum_replicate]
    simp [nsmul_eq_mul]

/-- A day whose single HS point has value 7 (stress 1). -/
def day7 (i : ℕ) : DateFiles := ⟨i, some [some ((0 : ℚ), (0 : ℚ), (7 : ℚ))], none, none⟩

/-- 85 consecutive constant-stress days. -/
def ds85 : List DateFiles := (List.range 85).map day7

/-- The record and state produced by the first `day7` call. -/
def rec7 : DailyRecord :=
  ⟨0, -999, -999, -999, -999, 7, 1, 2⟩

/-- The analyzer state after the first `day7` call. -/
def st7 : AnalyzerState :=
  ⟨[1], [2], 0, 0, true, 0, List.replicate 12 0⟩

theorem dhw_accumulation_witness :
    (st7.stress_window.getLast? = some (if 1 ≤ rec7.hs_90 then rec7.hs_90 / 7 else 0)) ∧
    (((runRecs zeroClim ds85).getD 0 defaultRecord).dhw
      = (lastN 84 (stressesOf ((runRecs zeroClim ds85).take 1))).sum) ∧
    (((runRecs zeroClim ds85).getD 84 defaultRecord).dhw
      = ((runRecs zeroClim ds85).getD 83 defaultRecord).dhw
        - (stressesOf (runRecs zeroClim ds85)).getD 0 0
        + (stressesOf (runRecs zeroClim ds85)).getD 84 0) ∧
    (((runRecs zeroClim ds85).getD 83 defaultRecord).dhw = 84 * 1) := by
  have h := dhw_accumulation zeroClim ds85
  refine ⟨?_, h.2.1 0 (by with_unfolding_all decide), h.2.2.1 (by with_unfolding_all decide),
    h.2.2.2 1 (by norm_num) (by with_unfolding_all decide) (by with_unfolding_all decide)⟩
  exact h.1 (initState zeroClim) (day7 0) rec7 st7 (by with_unfolding_all decide)

end NOAA

namespace NOAA

/-! ### C3: BAA is the rolling 7-day maximum -/

lemma mem_drop_of_getElem {α : Type} (l : List α) (m k : ℕ) (hk : k < l.length)
    (hm : m ≤ k) : l.get ⟨k, hk⟩ ∈ l.drop m := by
  have hl : k - m < (l.drop m).length := by
    rw [List.length_drop]
    omega
  have he : (l.drop m).get ⟨k - m, hl⟩ = l.get ⟨k, hk⟩ := by
    simp only [List.get_eq_getElem]
    rw [List.getElem_drop]
    congr 1
    omega
  rw [← he]
  exact List.get_mem _ _ hl

/-- C3: each record's `baa` equals the maximum of the daily alert levels
of the most recent `min(n, 7)` successful calls; in particular a level-4
day keeps `baa ≥ 4` for every record produced while it is inside the
7-slot window, and after eviction `baa` is again the maximum of the
remaining window contents (the general law). -/
theorem baa_rolling_max (c : ClimData) (ds : List DateFiles) :
    (∀ i, i < (runRecs c ds).length →
      ((runRecs c ds).getD i defaultRecord).baa
        = pyMaxNat (lastN 7 (levelsOf ((runRecs c ds).take (i + 1))))) ∧
    (∀ k i, k ≤ i → i < k + 7 → i < (runRecs c ds).length →
      (levelsOf (runRecs c ds)).getD k 0 = 4 →
      4 ≤ ((runRecs c ds).getD i defaultRecord).baa) := by
  have hinv : ∀ i, i < (runRecs c ds).length →
      ((runRecs c ds).getD i defaultRecord).dhw
        = (lastN 84 (stressesOf ((runRecs c ds).take (i + 1)))).sum ∧
      ((runRecs c ds).getD i defaultRecord).baa
        = pyMaxNat (lastN 7 (levelsOf ((runRecs c ds).take (i + 1)))) :=
    (runDays_inv c ds).2.2
  have hlvlen : (levelsOf (runRecs c ds)).length = (runRecs c ds).length := by
    simp [levelsOf]
  have hmapl : ∀ n, levelsOf ((runRecs c ds).take n)
      = (levelsOf (runRecs c ds)).take n := by
    intro n
    simp [levelsOf, List.map_take]
  refine ⟨fun i hi => (hinv i hi).2, ?_⟩
  intro k i hki hik hil hk4
  rw [(hinv i hil).2, hmapl]
  apply le_pyMaxNat
  unfold lastN
  have htl : ((levelsOf (runRecs c ds)).take (i + 1)).length = i + 1 := by
    rw [List.length_take]
    omega
  rw [htl]
  have hk' : k < (levelsOf (runRecs c ds)).length := by omega
  have hkt : k < ((levelsOf (runRecs c ds)).take (i + 1)).length := by omega
  have h4 : ((levelsOf (runRecs c ds)).take (i + 1)).get ⟨k, hkt⟩ = 4 := by
    simp only [List.get_eq_getElem]
    rw [List.getElem_take]
    rw [← List.getD_eq_getElem _ 0 hk']
    exact hk4
  have hmem := mem_drop_of_getElem ((levelsOf (runRecs c ds)).take (i + 1))
    (i + 1 - 7) k hkt (by omega)
  rw [h4] at hmem
  exact hmem

/-- 11 days: one level-4 spike (HS 56, so dhw jumps to 8) on day 4,
level-0 elsewhere. -/
def ds11 : List DateFiles :=
  (List.range 11).map fun i =>
    ⟨i, some [some ((0 : ℚ), (0 : ℚ), if i = 3 then (56 : ℚ) else 0)], none, none⟩

theorem baa_rolling_max_witness :
    (((runRecs zeroClim ds11).getD 10 defaultRecord).baa
      = pyMaxNat (lastN 7 (levelsOf ((runRecs zeroClim ds11).take 11)))) ∧
    4 ≤ ((runRecs zeroClim ds11).getD 9 defaultRecord).baa := by
  have h := baa_rolling_max zeroClim ds11
  exact ⟨h.1 10 (by with_unfolding_all decide),
    h.2 3 9 (by norm_num) (by norm_num) (by with_unfolding_all decide)
      (by with_unfolding_all decide)⟩

end NOAA

namespace NOAA

/-! ### C10: invariants of every returned record -/

lemma stressOf_nonneg (r : DailyRecord) : 0 ≤ stressOf r := dailyStress_nonneg r.hs_90

lemma levelOf_le_four (r : DailyRecord) : levelOf r ≤ 4 := alertLevel_le_four _ _

lemma runSt_stress_nonneg (c : ClimData) (ds : List DateFiles) :
    ∀ q ∈ (runSt c ds).stress_window, 0 ≤ q := by
  intro q hq
  have h1 : (runSt c ds).stress_window = lastN 84 (stressesOf (runRecs c ds)) :=
    (runDays_inv c ds).1
  rw [h1] at hq
  unfold lastN at hq
  have hq' : q ∈ stressesOf (runRecs c ds) := List.drop_subset _ _ hq
  rcases List.mem_map.mp hq' with ⟨r, _, rfl⟩
  exact stressOf_nonneg r

lemma runSt_levels_le (c : ClimData) (ds : List DateFiles) :
    ∀ n ∈ (runSt c ds).baa_window, n ≤ 4 := by
  intro n hn
  have h2 : (runSt c ds).baa_window = lastN 7 (levelsOf (runRecs c ds)) :=
    (runDays_inv c ds).2.1
  rw [h2] at hn
  unfold lastN at hn
  have hn' : n ∈ levelsOf (runRecs c ds) := List.drop_subset _ _ hn
  rcases List.mem_map.mp hn' with ⟨r, _, rfl⟩
  exact levelOf_le_four r

/-- C10: every record returned by `process_day` from any reachable
analyzer state satisfies `hs_90 = max(0, computed percentile) ≥ 0`,
`dhw ≥ 0`, `baa ≤ 4` (a level in `{0,...,4}`, since `baa : ℕ`), and
`baa` is at least the alert level classified on that same call. -/
theorem record_invariants (c : ClimData) (ds : List DateFiles) (d : DateFiles)
    (raw : List (Option Row)) (r : DailyRecord) (s' : AnalyzerState)
    (hraw : d.hs = some raw)
    (h : stepDate (runSt c ds) d = (some r, s')) :
    r.hs_90 = max 0 (percentile90 (hsVals (cleanSample raw))) ∧
    0 ≤ r.hs_90 ∧ 0 ≤ r.dhw ∧ r.baa ≤ 4 ∧
    alertLevel r.hs_90 r.dhw ≤ r.baa := by
  simp only [stepDate, hraw] at h
  have hne : cleanSample raw ≠ [] := by
    intro e
    rw [processDay_of_empty _ _ _ _ e] at h
    exact absurd (congrArg Prod.fst h) (by simp)
  rw [processDay_of_ne _ _ _ _ hne] at h
  have hr : (processDayGo (runSt c ds) d.date (cleanSample raw) d.sst d.ssta).1 = r :=
    Option.some.inj (congrArg Prod.fst h)
  obtain ⟨g1, g2, g3, g4⟩ := go_spec (runSt c ds) d.date (cleanSample raw) d.sst d.ssta
  have hhs : r.hs_90 = max 0 (percentile90 (hsVals (cleanSample raw))) := by
    rw [← hr]
    exact go_hs90 _ _ _ _ _
  refine ⟨hhs, ?_, ?_, ?_, ?_⟩
  · rw [hhs]
    exact le_max_left 0 _
  · rw [← hr, g3]
    apply List.sum_nonneg
    intro q hq
    rw [g1] at hq
    rcases mem_pushWindow hq with h' | h'
    · exact runSt_stress_nonneg c ds q h'
    · rw [h']
      exact stressOf_nonneg _
  · rw [← hr, g4]
    apply pyMaxNat_le
    intro n hn
    rw [g2] at hn
    rcases mem_pushWindow hn with h' | h'
    · exact runSt_levels_le c ds n h'
    · rw [h']
      exact levelOf_le_four _
  · show levelOf r ≤ r.baa
    rw [← hr, g4]
    apply le_pyMaxNat
    rw [g2]
    exact self_mem_pushWindow _ _ _

/-- The record of a single all-0.5 day. -/
def recHalf : DailyRecord := ⟨0, -999, -999, -999, -999, 1/2, 0, 1⟩

/-- The analyzer state after a single all-0.5 day. -/
def stHalf : AnalyzerState := ⟨[0], [1], 0, 0, true, 0, List.replicate 12 0⟩

theorem record_invariants_witness :
    recHalf.hs_90
      = max 0 (percentile90 (hsVals (cleanSample [some ((0 : ℚ), (0 : ℚ), (1 : ℚ)/2)]))) ∧
    0 ≤ recHalf.hs_90 ∧ 0 ≤ recHalf.dhw ∧ recHalf.baa ≤ 4 ∧
    alertLevel recHalf.hs_90 recHalf.dhw ≤ recHalf.baa :=
  record_invariants zeroClim []
    ⟨0, some [some ((0 : ℚ), (0 : ℚ), (1 : ℚ)/2)], none, none⟩
    [some ((0 : ℚ), (0 : ℚ), (1 : ℚ)/2)] recHalf stHalf rfl
    (by with_unfolding_all decide)

end NOAA
